import Mathlib

/-!
Verification development for the Terminato repository.

The subject is the Sat-Index Resolution Engine of a browser console for
Bitcoin ordinals: a CBOR-like binary metadata decoder (source file
src/unnamed/part_000, functions decodeCBOR / decodeMetadata /
handleInscription), a delta-encoded district-to-satoshi page parser and
cache (src/client/src/pages/Home.tsx, functions fillPage / getBitmapSat
inside handleOci), and a second console variant
(src/unnamed/part_001, functions loadDistrictPage / getBitmapSat).

The JavaScript source is shallowly embedded: byte buffers are List Nat
(each entry a byte value 0..255 as produced by Uint8Array), JavaScript
numbers that hold integers are Int or Nat, the value undefined is
represented by Option (none = undefined), and thrown exceptions are
Except values.  Where JavaScript coerces (undefined in bitwise
operators becomes 0, bit operators work on 32-bit twos-complement
integers) the embedding reproduces the coercion explicitly.
-/

set_option maxRecDepth 4096

namespace Terminato

/-! ## JavaScript numeric helpers -/

/-- JavaScript ToInt32: reduce modulo 2^32 and reinterpret as a signed
32-bit value.  Used because the source combines bytes with the shift
and bitwise-or operators, which operate on 32-bit twos-complement
integers in JavaScript. -/
def int32OfNat (n : Nat) : Int :=
  let m := n % 4294967296
  if m < 2147483648 then (m : Int) else (m : Int) - 4294967296

/-- Addition of JavaScript numbers where none stands for undefined or
NaN: any operation touching undefined or NaN yields NaN (none). -/
def jsAddOpt (a b : Option Int) : Option Int :=
  match a, b with
  | some x, some y => some (x + y)
  | _, _ => none

/-- Resolve one argument of Array.prototype.slice against a list of the
given length: undefined and NaN coerce to 0, negative values count from
the end (clamped at 0), and values past the end clamp to the length. -/
def jsSliceIdx (x : Option Int) (len : Nat) : Nat :=
  match x with
  | none => 0
  | some i => if i < 0 then ((len : Int) + i).toNat else min i.toNat len

/-- JavaScript slice(s, e) on a byte list: elements from the resolved
start up to (excluding) the resolved end; empty when end is not past
start. -/
def jsSlice (bytes : List Nat) (s e : Option Int) : List Nat :=
  (bytes.take (jsSliceIdx e bytes.length)).drop (jsSliceIdx s bytes.length)

/-! ## ByteReader (src/unnamed/part_000 lines 93-126)

The decoder closes over a byte array and a mutable position.  The
position is an Option Int: some p is an ordinary number (which the
source lets grow past the end of the buffer, or rewind below zero when
a negative length is added), none is NaN (reachable because the source
runs position += length where length can be undefined). -/

/-- readByte (part_000 lines 93-95): return bytes[position++].  Reading
outside the buffer yields undefined (none); the position is incremented
regardless, so it can exceed the buffer length.  A NaN position stays
NaN and always reads undefined. -/
def readByte (bytes : List Nat) (pos : Option Int) : Option Nat × Option Int :=
  match pos with
  | none => (none, none)
  | some p => ((if 0 ≤ p then bytes[p.toNat]? else none), some (p + 1))

/-- readByteString (part_000 lines 117-121): slice length bytes starting
at the position and advance the position by length.  The slice clamps
to the buffer, so fewer bytes (possibly zero) come back near the end,
while the position still advances by the full length. -/
def readByteString (bytes : List Nat) (pos len : Option Int) :
    List Nat × Option Int :=
  (jsSlice bytes pos (jsAddOpt pos len), jsAddOpt pos len)

/-! ## Hex rendering and UTF-8 decoding helpers -/

/-- One byte as two lowercase hex digits, as in
byte.toString(16).padStart(2, 0-char) used by the source for byte
strings and for the raw-hex fallback dump. -/
def byteToHex2 (n : Nat) : String :=
  let s := String.mk (Nat.toDigits 16 n)
  if s.length = 1 then "0" ++ s else s

/-- A byte list as a lowercase hex string (part_000 lines 142-145 and
230-233). -/
def bytesToHexString (bs : List Nat) : String :=
  String.join (bs.map byteToHex2)

/-- The replacement character U+FFFD emitted by TextDecoder for
malformed input. -/
def replChar : Char := Char.ofNat 0xFFFD

/-- UTF-8 decoding as performed by TextDecoder with the default
non-fatal mode: well-formed sequences decode to their scalar value,
malformed bytes become U+FFFD.  (The exact number of replacement
characters per malformed run is approximated - the claims only ever
evaluate this on ASCII input, where every conforming decoder agrees.) -/
def utf8DecodeAux : Nat → List Nat → List Char
  | 0, _ => []
  | _, [] => []
  | fuel + 1, b :: rest =>
    if b < 0x80 then Char.ofNat b :: utf8DecodeAux fuel rest
    else if b < 0xC2 then replChar :: utf8DecodeAux fuel rest
    else if b < 0xE0 then
      match rest with
      | b2 :: r2 =>
        if 0x80 ≤ b2 ∧ b2 < 0xC0 then
          Char.ofNat ((b - 0xC0) * 64 + (b2 - 0x80)) :: utf8DecodeAux fuel r2
        else replChar :: utf8DecodeAux fuel (b2 :: r2)
      | [] => [replChar]
    else if b < 0xF0 then
      match rest with
      | b2 :: b3 :: r3 =>
        let cp := (b - 0xE0) * 4096 + (b2 - 0x80) * 64 + (b3 - 0x80)
        if (0x80 ≤ b2 ∧ b2 < 0xC0) ∧ (0x80 ≤ b3 ∧ b3 < 0xC0) ∧
            0x800 ≤ cp ∧ ¬ (0xD800 ≤ cp ∧ cp ≤ 0xDFFF) then
          Char.ofNat cp :: utf8DecodeAux fuel r3
        else replChar :: utf8DecodeAux fuel (b2 :: b3 :: r3)
      | _ => [replChar]
    else if b < 0xF5 then
      match rest with
      | b2 :: b3 :: b4 :: r4 =>
        let cp := (b - 0xF0) * 262144 + (b2 - 0x80) * 4096 +
          (b3 - 0x80) * 64 + (b4 - 0x80)
        if (0x80 ≤ b2 ∧ b2 < 0xC0) ∧ (0x80 ≤ b3 ∧ b3 < 0xC0) ∧
            (0x80 ≤ b4 ∧ b4 < 0xC0) ∧ 0x10000 ≤ cp ∧ cp ≤ 0x10FFFF then
          Char.ofNat cp :: utf8DecodeAux fuel r4
        else replChar :: utf8DecodeAux fuel (b2 :: b3 :: b4 :: r4)
      | _ => [replChar]
    else replChar :: utf8DecodeAux fuel rest

/-- TextDecoder().decode on a byte list.  Every step of the loop
consumes at least one byte, so a fuel of the buffer length is always
enough; the fuel exists only to make the recursion structural. -/
def utf8Decode (bytes : List Nat) : String :=
  String.mk (utf8DecodeAux bytes.length bytes)

/-! ## The decoded value tree

decodeCBOR (part_000 lines 89-200) returns plain JavaScript values:
numbers, booleans, null, undefined, strings, arrays and objects (maps
and tag wrappers are both objects).  Floats read by the major-type-7
branches are kept as their raw bit pattern (assembled in typed-array
order, which is little-endian on the platforms this code runs on);
no claim inspects a float value, only which constructor comes back. -/

inductive JVal where
  | num (n : Int)
  | nan
  | undefined
  | null
  | bool (b : Bool)
  | str (s : String)
  | float32 (bits : Nat)
  | float64 (bits : Nat)
  | arr (l : List JVal)
  | obj (l : List (String × JVal))
deriving Repr

/-- Errors thrown inside decodeCBOR (and the fuel guard of the
embedding).  unsupportedLength is the throw in readLength (part_000
line 114), unsupportedMajorType the switch default (line 195, only
reachable for byte values outside 0..255, which a Uint8Array never
produces), typeError models key.toString() on null or undefined map
keys, rangeError the Float32Array/Float64Array constructor on a
buffer slice whose length is not a multiple of the element size.
outOfFuel is the embedding bound on recursion depth and stands for the
stack overflow the JavaScript engine raises on the (contrived) inputs
whose nesting outruns the buffer length; both are caught by the same
catch-all in decodeMetadata. -/
inductive DecodeErr where
  | unsupportedLength (ai : Nat)
  | unsupportedMajorType (mt : Nat)
  | typeError
  | rangeError
  | outOfFuel
deriving Repr, DecidableEq

/-- Placeholder for the decimal rendering of a float value; JavaScript
number-to-string formatting is not modelled (no claim depends on it). -/
def floatDisplay (bits : Nat) : String :=
  "float:" ++ String.mk (Nat.toDigits 16 bits)

/-- One element of Array.prototype.join: null and undefined elements
contribute the empty string, every other element its toString (given
by the function argument). -/
def jsToStringElem (f : JVal → Except DecodeErr String) :
    JVal → Except DecodeErr String
  | .undefined => .ok ""
  | .null => .ok ""
  | v => f v

/-- Array.prototype.toString joins the element strings with commas. -/
def jsToStringList (f : JVal → Except DecodeErr String) :
    List JVal → Except DecodeErr String
  | [] => .ok ""
  | v :: vs =>
    match jsToStringElem f v with
    | .error e => .error e
    | .ok s =>
      match vs with
      | [] => .ok s
      | _ :: _ =>
        match jsToStringList f vs with
        | .error e => .error e
        | .ok t => .ok (s ++ "," ++ t)

/-- JavaScript String(v) / v.toString() as used for map keys (part_000
line 161), with a structural fuel.  Callers pass a fuel that bounds
the nesting depth of the value (the decoder produces values no deeper
than its own fuel), so the outOfFuel arm is dead code needed only to
make the recursion structural.  null and undefined have no toString
and raise a TypeError; arrays join their elements with commas; objects
render as [object Object]. -/
def jsToStringF : Nat → JVal → Except DecodeErr String
  | 0, _ => .error .outOfFuel
  | fuel + 1, v =>
    match v with
    | .num n => .ok (toString n)
    | .nan => .ok "NaN"
    | .undefined => .error .typeError
    | .null => .error .typeError
    | .bool b => .ok (if b then "true" else "false")
    | .str s => .ok s
    | .float32 bits => .ok (floatDisplay bits)
    | .float64 bits => .ok (floatDisplay bits)
    | .arr l => jsToStringList (jsToStringF fuel) l
    | .obj _ => .ok "[object Object]"

/-- Indentation produced by JSON.stringify(x, null, 2) at a nesting
level. -/
def jsonIndent (lvl : Nat) : String :=
  String.mk (List.replicate (2 * lvl) (Char.ofNat 32))

/-- JSON string escaping for quote, backslash and control characters. -/
def jsonEscapeChar (c : Char) : String :=
  if c = Char.ofNat 34 then "\\\""
  else if c = Char.ofNat 92 then "\\\\"
  else if c = Char.ofNat 10 then "\\n"
  else if c = Char.ofNat 13 then "\\r"
  else if c = Char.ofNat 9 then "\\t"
  else if c.toNat < 32 then "\\u00" ++ byteToHex2 c.toNat
  else String.singleton c

def jsonQuote (s : String) : String :=
  "\"" ++ String.join (s.toList.map jsonEscapeChar) ++ "\""

/-- Array elements of JSON.stringify: an element whose serialisation
is undefined becomes null. -/
def jsonStrList (f : JVal → Option String) : List JVal → List String
  | [] => []
  | v :: vs => ((f v).getD "null") :: jsonStrList f vs

/-- Object entries of JSON.stringify: entries whose value serialises
to undefined are skipped. -/
def jsonStrObj (f : JVal → Option String) :
    List (String × JVal) → List String
  | [] => []
  | (k, v) :: rest =>
    match f v with
    | none => jsonStrObj f rest
    | some s => (jsonQuote k ++ ": " ++ s) :: jsonStrObj f rest

/-- JSON.stringify(v, null, 2) at a nesting level, with a structural
fuel.  Callers pass a fuel bounding the nesting depth of the value
(the decoder produces values no deeper than its own fuel), so the
fuel-zero arm is dead code needed only to make the recursion
structural.  none is the undefined result JSON.stringify returns for
an undefined input.  NaN serialises as null.  Float number formatting
is the floatDisplay placeholder (never inspected by a claim).  The
integer-first key ordering JavaScript applies when enumerating object
keys is not reproduced (no claim inspects a serialised map). -/
def jsonStrF : Nat → Nat → JVal → Option String
  | 0, _, _ => none
  | fuel + 1, lvl, v =>
    match v with
    | .num n => some (toString n)
    | .nan => some "null"
    | .undefined => none
    | .null => some "null"
    | .bool b => some (if b then "true" else "false")
    | .str s => some (jsonQuote s)
    | .float32 bits => some (floatDisplay bits)
    | .float64 bits => some (floatDisplay bits)
    | .arr l =>
      match jsonStrList (jsonStrF fuel (lvl + 1)) l with
      | [] => some "[]"
      | parts =>
        some ("[\n" ++
          String.intercalate ",\n"
            (parts.map (fun s => jsonIndent (lvl + 1) ++ s)) ++
          "\n" ++ jsonIndent lvl ++ "]")
    | .obj kvs =>
      match jsonStrObj (jsonStrF fuel (lvl + 1)) kvs with
      | [] => some "\x7b\x7d"
      | parts =>
        some ("\x7b\n" ++
          String.intercalate ",\n"
            (parts.map (fun s => jsonIndent (lvl + 1) ++ s)) ++
          "\n" ++ jsonIndent lvl ++ "\x7d")

/-! ## The CBOR-like binary decoder (part_000 lines 89-200) -/

/-- The number of binary digits of a natural number (0 for 0),
computed with a structural fuel so that the kernel can evaluate it;
the fuel argument n itself always suffices since each step halves. -/
def natBitLenAux : Nat → Nat → Nat
  | 0, _ => 0
  | fuel + 1, n => if n = 0 then 0 else natBitLenAux fuel (n / 2) + 1

def natBitLen (n : Nat) : Nat :=
  natBitLenAux n n

/-- Round an integer to the nearest IEEE-754 double (53-bit mantissa,
ties to even).  JavaScript computes the 8-byte length argument as
hi * Math.pow(2, 32) + lo in doubles: the product is exact (a 32-bit
integer scaled by a power of two), and the final addition rounds the
exact integer sum to the nearest double, which loses the low bits of
sums above 2^53.  Integers below 2^53 are returned unchanged. -/
def roundToDouble (s : Int) : Int :=
  let a := s.natAbs
  if a < 2 ^ 53 then s
  else
    let k := natBitLen a - 53
    let q := a / 2 ^ k
    let r := a % 2 ^ k
    let half := 2 ^ (k - 1)
    let q2 :=
      if r > half then q + 1
      else if r < half then q
      else if q % 2 = 0 then q else q + 1
    if s < 0 then -((q2 * 2 ^ k : Nat) : Int) else ((q2 * 2 ^ k : Nat) : Int)

/-- readLength (part_000 lines 97-115): read the length/argument
encoded by the low five bits of the header byte.  Values below 24 are
literal; 24 reads one following byte (undefined past the end of the
buffer, hence the Option result); 25, 26 and 27 assemble 2, 4 or 8
following bytes with shift-and-or, which in JavaScript works on signed
32-bit integers, so the 4-byte groups wrap to negative values when the
leading byte has its high bit set (int32OfNat); undefined bytes past
the end coerce to 0 inside those operators.  For additional info 28-31
it throws the Unsupported length encoding error before the per-major-
type switch in decode ever runs.  The 8-byte case multiplies the high
group by 2^32 and adds the low group in double-precision arithmetic,
so the sum is rounded to the nearest double (roundToDouble) - the
documented precision loss above 2^53. -/
def readLength (bytes : List Nat) (b : Nat) (pos : Option Int) :
    Except DecodeErr (Option Int) × Option Int :=
  let ai := b % 32
  if ai < 24 then (.ok (some (ai : Int)), pos)
  else if ai = 24 then
    let (v, p1) := readByte bytes pos
    (.ok (v.map fun n => (n : Int)), p1)
  else if ai = 25 then
    let (v1, p1) := readByte bytes pos
    let (v2, p2) := readByte bytes p1
    (.ok (some (int32OfNat ((v1.getD 0) * 256 + v2.getD 0))), p2)
  else if ai = 26 then
    let (v1, p1) := readByte bytes pos
    let (v2, p2) := readByte bytes p1
    let (v3, p3) := readByte bytes p2
    let (v4, p4) := readByte bytes p3
    (.ok (some (int32OfNat ((v1.getD 0) * 16777216 + (v2.getD 0) * 65536 +
      (v3.getD 0) * 256 + v4.getD 0))), p4)
  else if ai = 27 then
    let (v1, p1) := readByte bytes pos
    let (v2, p2) := readByte bytes p1
    let (v3, p3) := readByte bytes p2
    let (v4, p4) := readByte bytes p3
    let (v5, p5) := readByte bytes p4
    let (v6, p6) := readByte bytes p5
    let (v7, p7) := readByte bytes p6
    let (v8, p8) := readByte bytes p7
    let hi := int32OfNat ((v1.getD 0) * 16777216 + (v2.getD 0) * 65536 +
      (v3.getD 0) * 256 + v4.getD 0)
    let lo := int32OfNat ((v5.getD 0) * 16777216 + (v6.getD 0) * 65536 +
      (v7.getD 0) * 256 + v8.getD 0)
    (.ok (some (roundToDouble (hi * 4294967296 + lo))), p8)
  else (.error (.unsupportedLength ai), pos)

/-- The loop bound of for (let i = 0; i < length; i++) when length is a
JavaScript number that may be undefined (none) or negative: undefined
and negative compare false against every i, so zero iterations. -/
def lenCount : Option Int → Nat
  | none => 0
  | some n => n.toNat

/-- An unsigned-int result: the length argument itself, or undefined
when the single extension byte was past the end of the buffer. -/
def jnumOpt : Option Int → JVal
  | some n => .num n
  | none => .undefined

/-- map[k] = v on the insertion-ordered object representation: an
existing key keeps its position and gets the new value, a new key is
appended. -/
def objSet (l : List (String × JVal)) (k : String) (v : JVal) :
    List (String × JVal) :=
  if l.any (fun kv => kv.1 = k) then
    l.map (fun kv => if kv.1 = k then (k, v) else kv)
  else l ++ [(k, v)]

/-- Assemble the bytes of a typed-array element in memory order
(little-endian) into a bit pattern. -/
def bitsLE (chunk : List Nat) : Nat :=
  chunk.foldr (fun b acc => acc * 256 + b) 0

/-- The array loop of decode: n child values in order, each read by
the function argument (one decode step at the remaining fuel). -/
def decodeN (f : Option Int → Except DecodeErr (JVal × Option Int)) :
    Nat → Option Int → Except DecodeErr (List JVal × Option Int)
  | 0, pos => .ok ([], pos)
  | n + 1, pos =>
    match f pos with
    | .error e => .error e
    | .ok (v, p1) =>
      match decodeN f n p1 with
      | .error e => .error e
      | .ok (vs, p2) => .ok (v :: vs, p2)

/-- The map loop of decode: n key/value pairs, each key decoded as a
value and stringified (throwing on null and undefined keys), inserted
left to right so that a duplicate key keeps its first position with
its last value. -/
def decodePairs (f : Option Int → Except DecodeErr (JVal × Option Int))
    (tf : Nat) :
    Nat → Option Int → List (String × JVal) →
    Except DecodeErr (List (String × JVal) × Option Int)
  | 0, pos, acc => .ok (acc, pos)
  | n + 1, pos, acc =>
    match f pos with
    | .error e => .error e
    | .ok (k, p1) =>
      match jsToStringF tf k with
      | .error e => .error e
      | .ok ks =>
        match f p1 with
        | .error e => .error e
        | .ok (v, p2) => decodePairs f tf n p2 (objSet acc ks v)

/-- decode (part_000 lines 128-197), with a fuel parameter bounding
recursion depth (see DecodeErr.outOfFuel).  One call reads the header
byte (undefined past the end coerces to 0 in both the shift and the
mask, so reads past the end behave as major type 0 with argument 0 and
recursion always bottoms out there), computes the length argument via
readLength - before and independent of the major type - and then
dispatches on the top three bits. -/
def decode (bytes : List Nat) : Nat → Option Int →
    Except DecodeErr (JVal × Option Int)
  | 0, _ => .error .outOfFuel
  | fuel + 1, pos =>
    let r0 := readByte bytes pos
    let b := r0.1.getD 0
    let p1 := r0.2
    let mt := b / 32
    match readLength bytes b p1 with
    | (.error e, _) => .error e
    | (.ok len, p2) =>
      if mt = 0 then .ok (jnumOpt len, p2)
      else if mt = 1 then
        .ok ((match len with
          | some n => JVal.num (-1 - n)
          | none => JVal.nan), p2)
      else if mt = 2 then
        let r := readByteString bytes p2 len
        .ok (.str (bytesToHexString r.1), r.2)
      else if mt = 3 then
        let r := readByteString bytes p2 len
        .ok (.str (utf8Decode r.1), r.2)
      else if mt = 4 then
        match decodeN (decode bytes fuel) (lenCount len) p2 with
        | .error e => .error e
        | .ok (vs, p3) => .ok (.arr vs, p3)
      else if mt = 5 then
        match decodePairs (decode bytes fuel) (fuel + 1) (lenCount len) p2 [] with
        | .error e => .error e
        | .ok (kvs, p3) => .ok (.obj kvs, p3)
      else if mt = 6 then
        match decode bytes fuel p2 with
        | .error e => .error e
        | .ok (v, p3) => .ok (.obj [("tag", jnumOpt len), ("value", v)], p3)
      else if mt = 7 then
        if len = some 20 then .ok (.bool false, p2)
        else if len = some 21 then .ok (.bool true, p2)
        else if len = some 22 then .ok (.null, p2)
        else if len = some 23 then .ok (.undefined, p2)
        else if len = some 25 then .ok (.str "FLOAT16_UNSUPPORTED", p2)
        else if len = some 26 then
          let chunk := jsSlice bytes p2 (jsAddOpt p2 (some 4))
          let p3 := jsAddOpt p2 (some 4)
          if chunk.length = 4 then .ok (.float32 (bitsLE chunk), p3)
          else if chunk.length = 0 then .ok (.undefined, p3)
          else .error .rangeError
        else if len = some 27 then
          let chunk := jsSlice bytes p2 (jsAddOpt p2 (some 8))
          let p3 := jsAddOpt p2 (some 8)
          if chunk.length = 8 then .ok (.float64 (bitsLE chunk), p3)
          else if chunk.length = 0 then .ok (.undefined, p3)
          else .error .rangeError
        else .ok (jnumOpt len, p2)
      else .error (.unsupportedMajorType mt)

/-- decodeCBOR (part_000 lines 89-200): decode one value from the start
of the buffer.  The fuel bytes.length + 1 covers every input whose
nesting consumes at least one byte per level, which is every input that
does not abuse the negative-length position rewind; on those the
JavaScript engine overflows its stack, modelled by outOfFuel. -/
def decodeCBOR (bytes : List Nat) : Except DecodeErr JVal :=
  (decode bytes (bytes.length + 1) (some 0)).map Prod.fst

/-! ## MetadataDecoder (part_000 lines 203-236) -/

/-- decodeMetadata on a byte buffer: try decodeCBOR and serialise the
result with JSON.stringify (which returns undefined - none - when the
decoded value is undefined); any error thrown inside is caught and the
original bytes come back as a lowercase hex dump.  (The typeof check in
the catch can only see the byte buffer: a string input is converted to
bytes before the try ever reaches decodeCBOR, so the string arm of the
catch is unreachable.) -/
def decodeMetadataBytes (buffer : List Nat) : Except DecodeErr (Option String) :=
  match decodeCBOR buffer with
  | .ok v => .ok (jsonStrF (buffer.length + 2) 0 v)
  | .error _ => .ok (some (bytesToHexString buffer))

/-- decodeMetadata for both accepted payload shapes.  A string payload
whose characters are all code points up to 255 (the binary-string test
of line 209) is converted to its byte values and decoded like a
buffer; any other string is returned unchanged. -/
def decodeMetadata (payload : List Nat ⊕ String) :
    Except DecodeErr (Option String) :=
  match payload with
  | .inl buffer => decodeMetadataBytes buffer
  | .inr s =>
    if s.toList.all (fun c => c.toNat ≤ 255) then
      decodeMetadataBytes (s.toList.map (fun c => c.toNat))
    else .ok (some s)

/-! ## The two metadata display paths of handleInscription
(part_000 lines 428-488 for the ALL subcommand, lines 511-569 for the
METADATA subcommand) -/

/-- text.startsWith and text.endsWith applied to the one-character
quote string, as in both handler paths: the first (respectively last)
character is the double quote. -/
def startsWithQuote (s : String) : Bool :=
  s.toList.head? = some (Char.ofNat 34)

def endsWithQuote (s : String) : Bool :=
  s.toList.getLast? = some (Char.ofNat 34)

/-- The scalar display of handleInscription: decodeMetadata never
returns an object (its successes are strings or undefined), so the
typeof test always lands in the template-literal arm. -/
def valueDisplay : Option String → String
  | some s => "Value: " ++ s ++ " (string)"
  | none => "Value: undefined (undefined)"

/-- JavaScript substring(a, b): clamp both arguments to the string
length and swap them when start exceeds end. -/
def jsSubstring (s : String) (a b : Nat) : String :=
  let n := s.length
  let x := min a n
  let y := min b n
  String.mk ((s.toList.drop (min x y)).take (max x y - min x y))

/-- The test of the regular expression of one-or-more hex digits
anchored at both ends, applied in both handler paths. -/
def isHexDigitChar (c : Char) : Bool :=
  (Char.ofNat 48 ≤ c ∧ c ≤ Char.ofNat 57) ∨
  (Char.ofNat 97 ≤ c ∧ c ≤ Char.ofNat 102) ∨
  (Char.ofNat 65 ≤ c ∧ c ≤ Char.ofNat 70)

def hexTest (s : String) : Bool :=
  s.length > 0 ∧ s.toList.all isHexDigitChar

/-- parseInt(chunk, 16) on a chunk of at most two characters: the
longest valid hex prefix, or NaN (none) when the first character is
not a hex digit. -/
def hexDigitVal (c : Char) : Option Nat :=
  if Char.ofNat 48 ≤ c ∧ c ≤ Char.ofNat 57 then some (c.toNat - 48)
  else if Char.ofNat 97 ≤ c ∧ c ≤ Char.ofNat 102 then some (c.toNat - 87)
  else if Char.ofNat 65 ≤ c ∧ c ≤ Char.ofNat 70 then some (c.toNat - 55)
  else none

def hexChunkVal : List Char → Option Nat
  | [] => none
  | [c] => hexDigitVal c
  | c1 :: c2 :: _ =>
    match hexDigitVal c1 with
    | none => none
    | some v1 =>
      match hexDigitVal c2 with
      | none => some v1
      | some v2 => some (v1 * 16 + v2)

/-- Split a character list into the two-character chunks that the loop
of hexToText walks (a trailing odd character forms a final one-element
chunk). -/
def hexChunks : List Char → List (List Char)
  | [] => []
  | [c] => [[c]]
  | c1 :: c2 :: rest => [c1, c2] :: hexChunks rest

/-- One chunk rendered by hexToText (part_000 lines 73-86): printable
ASCII values become their character, everything else (including NaN
from an unparsable chunk) becomes a backslash-x token carrying the
chunk text. -/
def hexChunkRender (chunk : List Char) : String :=
  match hexChunkVal chunk with
  | some v =>
    if 32 ≤ v ∧ v ≤ 126 then String.singleton (Char.ofNat v)
    else "\\x" ++ String.mk chunk
  | none => "\\x" ++ String.mk chunk

/-- hexToText (part_000 lines 73-86). -/
def hexToText (hex : String) : String :=
  String.join ((hexChunks hex.toList).map hexChunkRender)

/-- The metadata branch of the ALL subcommand (part_000 lines 436-478):
decodeMetadata first, and only if it threw - which it never does - the
quoted-hex unwrapping and the raw-text fallback. -/
def metadataAllDisplay (buffer : List Nat) : String :=
  match decodeMetadataBytes buffer with
  | .ok dm => valueDisplay dm
  | .error _ =>
    let text := utf8Decode buffer
    if startsWithQuote text ∧ endsWithQuote text then
      let hexContent := jsSubstring text 1 (text.length - 1)
      if hexTest hexContent then "Hex Decoded: " ++ hexToText hexContent
      else text
    else text

/-- The metadata branch of the METADATA subcommand (part_000 lines
524-562): quoted-hex unwrapping first, then decodeMetadata, then the
raw text. -/
def metadataSubDisplay (buffer : List Nat) : String :=
  let text := utf8Decode buffer
  if startsWithQuote text ∧ endsWithQuote text then
    let hexString := jsSubstring text 1 (text.length - 1)
    if hexTest hexString then "Hex Decoded: " ++ hexToText hexString
    else
      match decodeMetadataBytes buffer with
      | .ok dm => valueDisplay dm
      | .error _ => text
  else
    match decodeMetadataBytes buffer with
    | .ok dm => valueDisplay dm
    | .error _ => text

/-- The empty-payload guard in front of both branches (part_000 lines
430-434): a missing or zero-length buffer prints the no-metadata
marker and the decoder is never entered. -/
def metadataEntry (buffer : List Nat) : String :=
  if buffer.length = 0 then
    "METADATA: No metadata available for this inscription"
  else metadataAllDisplay buffer

/-! ## DeltaPageParser (Home.tsx, fillPage, lines 874-1048)

Raw page text reaches fillPage as JSON-ish text; JSON.parse itself is
a JavaScript builtin and is not modelled.  What is modelled is what
fillPage computes from the parsed values: the bracket-wrap-and-split
normalization applied to pages 2 and 3 (lines 985-986, identical in
part_001 lines 420-421 and in the original OCI script the repository
carries in src/attached_assets), and the delta reconstruction plus
index scatter applied to every page (lines 1024-1038). -/

/-- JavaScript slice(s, e) with plain in-order nonnegative arguments. -/
def jsSliceNat (l : List α) (s e : Nat) : List α :=
  (l.take e).drop s

/-- Lines 985-986: after data = JSON.parse of the text wrapped in
brackets, data becomes [data.slice(0, 99999), data.slice(100000,
199999)].  The argument is the parsed flattened array. -/
def page23Normalize (flat : List α) : List α × List α :=
  (jsSliceNat flat 0 99999, jsSliceNat flat 100000 199999)

/-- The page dispatch around that normalization (Home.tsx line 982,
part_001 line 418): exactly the pages with index 2 or 3 take the
bracket-wrap-and-split branch.  none stands for the branches of the
other pages, which parse their raw text by unrelated strategies (and
never reach this normalization). -/
def page23Branch (page : Nat) (flat : List α) : Option (List α × List α) :=
  if page = 2 ∨ page = 3 then some (page23Normalize flat) else none

/-- Lines 1025-1032: rebuild absolute satoshi numbers from deltas by a
running sum (fullSats[0] = deltas[0], fullSats[i] = fullSats[i-1] +
deltas[i]).  Deltas parse to nonnegative integers below 2^53 in this
domain, so parseInt round-trips exactly and Nat arithmetic is exact. -/
def fullSatsGo (prev : Nat) : List Nat → List Nat
  | [] => []
  | d :: ds => (prev + d) :: fullSatsGo (prev + d) ds

def fullSats : List Nat → List Nat
  | [] => []
  | d :: ds => d :: fullSatsGo d ds

/-- Lines 1035-1038: the scatter loop filledArray[index] = fullSats[i]
walking data[1] with its position i.  Slots hold Option Nat because a
JavaScript array slot can hold undefined: when data[1] is longer than
the reconstructed fullSats, the source writes fullSats[i] = undefined
into the slot.  List.set ignores an index at or beyond 100000, where
the JavaScript write would instead grow the array; the claims over
this function restrict indices to the page size, where the two agree. -/
def scatterGo (sats : List Nat) : List Nat → Nat → List (Option Nat) →
    List (Option Nat)
  | [], _, arr => arr
  | idx :: rest, i, arr => scatterGo sats rest (i + 1) (arr.set idx sats[i]?)

/-- The pure core of fillPage: Array(100000).fill(0), then the delta
reconstruction and the scatter. -/
def fillPageCore (deltas indices : List Nat) : List (Option Nat) :=
  scatterGo (fullSats deltas) indices 0 (List.replicate 100000 (some 0))

/-! ## SatIndexCache and resolution (Home.tsx, handleOci, lines
806-1194)

The handler closes over pages = Array(9).fill(0); slot p is 0 (falsy)
until fillPage(p) succeeds and stores the processed array.  The fetch
plus JSON normalization of fillPage is abstracted by an environment
env : page index to Option (deltas, indices): none means the fetch
failed or no normalization strategy produced the two-array shape (all
the return false paths of lines 885-1022), some means the page
normalized to the given pair, after which fillPage stores
fillPageCore deltas indices.  Each resolver step also reports the list
of page indices it fetched (fillPage fetches the URL allPages[page]
exactly once, at line 883, before any parsing). -/

structure OciState where
  pages : Nat → Option (List (Option Nat))

/-- The empty cache: every slot still holds the falsy 0. -/
def initialOciState : OciState := ⟨fun _ => none⟩

/-- fillPage(page) (Home.tsx lines 875-1048): fetch the page URL, then
parse and store.  Returns the success flag, the new state and the
fetch log. -/
def fillPage (env : Nat → Option (List Nat × List Nat)) (page : Nat)
    (st : OciState) : Bool × OciState × List Nat :=
  match env page with
  | none => (false, st, [page])
  | some di =>
    (true,
      ⟨fun q => if q = page then some (fillPageCore di.1 di.2) else st.pages q⟩,
      [page])

/-- getBitmapSat (Home.tsx lines 1051-1070): reject districts outside
0..839999 before anything else, then load the single page
floor(d / 100000) if its slot is still falsy, then return
pages[page][d % 100000].  The result is the raw slot value (none when
nothing was returned - the null returns of the source - or when the
slot holds undefined). -/
def getBitmapSat (env : Nat → Option (List Nat × List Nat)) (d : Int)
    (st : OciState) : Option Nat × OciState × List Nat :=
  if d < 0 then (none, st, [])
  else if d > 839999 then (none, st, [])
  else
    let page := (d / 100000).toNat
    match st.pages page with
    | some arr => ((arr[(d % 100000).toNat]?).join, st, [])
    | none =>
      match fillPage env page st with
      | (false, st1, log) => (none, st1, log)
      | (true, st1, log) =>
        match st1.pages page with
        | some arr => ((arr[(d % 100000).toNat]?).join, st1, log)
        | none => (none, st1, log)

/-- The consumption of getBitmapSat in handleOci (lines 1148-1170):
if (sat) treats 0 (and null) as falsy and reports the district as not
resolvable, so a zero slot surfaces as Unresolved. -/
def resolveDistrict (env : Nat → Option (List Nat × List Nat)) (d : Int)
    (st : OciState) : Option Nat × OciState × List Nat :=
  let r := getBitmapSat env d st
  ((match r.1 with
    | some v => if v = 0 then none else some v
    | none => none), r.2.1, r.2.2)

/-! ## The part_001 variant of getBitmapSat (part_001 lines 532-584)

This variant keeps its loaded pages in React state.  When the page is
already present it reads the slot and - unlike the Home.tsx version -
replaces a missing or zero value by a deterministic computed fallback
(lines 566-579).  When the page is absent it awaits loadDistrictPage
and then re-reads the captured (stale) state object, whose loadedPages
still lacks the page, so both the failure and the success path of a
fresh load fall into the return null of lines 555-558; the embedding
folds that whole path to none. -/

def part001Fallback (page index : Nat) : Nat :=
  if page = 0 ∨ page = 1 then
    (if page = 0 then 1000000 else 5000000) + index * 3
  else 1000000 + page * 100000 + index * 2

def part001GetBitmapSat (loadedPages : Nat → Option (List (Option Nat)))
    (d : Int) : Option Nat :=
  if d < 0 ∨ d > 839999 then none
  else
    let page := (d / 100000).toNat
    match loadedPages page with
    | none => none
    | some arr =>
      let index := (d % 100000).toNat
      match (arr[index]?).join with
      | some v => if v = 0 then some (part001Fallback page index) else some v
      | none => some (part001Fallback page index)

/-! ## Concrete inputs used by witnesses and counterexamples -/

/-- The bytes of the observed metadata payload: a JSON-quoted string
whose inner content is the hex digits 48656c6c6f. -/
def helloQuotedBytes : List Nat :=
  [34, 52, 56, 54, 53, 54, 99, 54, 99, 54, 102, 34]

/-- A page store for the part_001 counterexample: page 2 is loaded and
every one of its slots holds the zero sentinel. -/
def loadedZeroPages : Nat → Option (List (Option Nat)) :=
  fun p => if p = 2 then some (List.replicate 100000 (some 0)) else none

/-- A cache state for witnesses: page 0 is loaded with an all-zero
slot array, the other pages are untouched. -/
def zeroPageState : OciState :=
  ⟨fun p => if p = 0 then some (List.replicate 100000 (some 0)) else none⟩

/-- A witness environment: page 1 normalizes to a one-entry payload,
every other page fails to load. -/
def witnessEnv : Nat → Option (List Nat × List Nat) :=
  fun p => if p = 1 then some ([5], [0]) else none

/-! # Theorems -/

/-! ## Helper lemmas about the scatter loop and the running sum -/

lemma scatterGo_length (sats idxs : List Nat) (i : Nat)
    (arr : List (Option Nat)) :
    (scatterGo sats idxs i arr).length = arr.length := by
  induction idxs generalizing i arr with
  | nil => rfl
  | cons x xs ih => simp [scatterGo, ih, List.length_set]

lemma scatterGo_not_mem (sats idxs : List Nat) (i j : Nat)
    (arr : List (Option Nat)) (h : j ∉ idxs) :
    (scatterGo sats idxs i arr)[j]? = arr[j]? := by
  induction idxs generalizing i arr with
  | nil => rfl
  | cons x xs ih =>
    simp only [List.mem_cons, not_or] at h
    rw [scatterGo, ih _ _ h.2, List.getElem?_set_ne (Ne.symm h.1)]

lemma scatterGo_hit (sats idxs : List Nat) (i : Nat)
    (arr : List (Option Nat)) (hnd : idxs.Nodup) (k : Nat)
    (hk : k < idxs.length) (hlt : idxs.get ⟨k, hk⟩ < arr.length) :
    (scatterGo sats idxs i arr)[idxs.get ⟨k, hk⟩]? = some sats[i + k]? := by
  induction idxs generalizing i arr k with
  | nil => exact absurd hk (Nat.not_lt_zero k)
  | cons x xs ih =>
    rcases List.nodup_cons.mp hnd with ⟨hx, hxs⟩
    cases k with
    | zero =>
      simp only [List.get] at hlt ⊢
      rw [scatterGo, scatterGo_not_mem _ _ _ _ _ hx,
        List.getElem?_set_self (by simpa using hlt), Nat.add_zero]
    | succ k =>
      simp only [List.get] at hlt ⊢
      rw [scatterGo]
      have := ih (i + 1) (arr.set x sats[i]?) hxs k (by simpa using hk)
        (by simpa [List.length_set] using hlt)
      simpa [Nat.add_comm, Nat.add_assoc, Nat.add_left_comm] using this

lemma fullSatsGo_length (p : Nat) (ds : List Nat) :
    (fullSatsGo p ds).length = ds.length := by
  induction ds generalizing p with
  | nil => rfl
  | cons d ds ih => simp [fullSatsGo, ih]

lemma fullSats_length (ds : List Nat) : (fullSats ds).length = ds.length := by
  cases ds with
  | nil => rfl
  | cons d ds => simp [fullSats, fullSatsGo_length]

lemma fullSatsGo_getD_zero (p : Nat) (d : Nat) (ds : List Nat) :
    (fullSatsGo p (d :: ds)).getD 0 0 = p + d := by
  simp [fullSatsGo]

lemma fullSatsGo_getD_succ (p : Nat) (ds : List Nat) (i : Nat)
    (h : i + 1 < ds.length) :
    (fullSatsGo p ds).getD (i + 1) 0 =
      (fullSatsGo p ds).getD i 0 + ds.getD (i + 1) 0 := by
  induction ds generalizing p i with
  | nil => simp at h
  | cons d ds ih =>
    cases i with
    | zero =>
      cases ds with
      | nil => simp at h
      | cons e es => simp [fullSatsGo]
    | succ i =>
      have := ih (p + d) i (by simpa using h)
      simpa [fullSatsGo] using this

lemma fullSats_getD_zero (d : Nat) (ds : List Nat) :
    (fullSats (d :: ds)).getD 0 0 = d := by
  simp [fullSats]

lemma fullSats_recurrence (ds : List Nat) (i : Nat) (h : i + 1 < ds.length) :
    (fullSats ds).getD (i + 1) 0 =
      (fullSats ds).getD i 0 + ds.getD (i + 1) 0 := by
  cases ds with
  | nil => simp at h
  | cons d ds =>
    cases i with
    | zero =>
      cases ds with
      | nil => simp at h
      | cons e es => simp [fullSats, fullSatsGo]
    | succ i =>
      have hrec := fullSatsGo_getD_succ d ds i (by simpa using h)
      simpa [fullSats] using hrec

/-! ## C1: delta reconstruction and index scatter -/

/-- C1.  For every successfully normalized page payload [deltas,
indices] (well-formed in the sense the data format guarantees: the
indices are distinct page slots), fillPage reconstructs absolute
satoshi numbers by cumulative sum - absolute[0] = deltas[0] and
absolute[i] = absolute[i-1] + deltas[i] - and scatters them as
result[indices[i]] = absolute[i], leaving every position not named by
indices equal to 0; in particular deltas = [1000, 5, 10] with indices
= [2, 0, 1] yields a page starting [1005, 1015, 1000, 0, 0]. -/
theorem fillPage_delta_reconstruction_and_scatter
    (deltas indices : List Nat)
    (hnd : indices.Nodup)
    (hlt : ∀ j ∈ indices, j < 100000) :
    (fillPageCore deltas indices).length = 100000
    ∧ (∀ k (hk : k < indices.length),
        (fillPageCore deltas indices)[indices.get ⟨k, hk⟩]? =
          some (fullSats deltas)[k]?)
    ∧ (∀ j, j < 100000 → j ∉ indices →
        (fillPageCore deltas indices)[j]? = some (some 0))
    ∧ (∀ d ds, deltas = d :: ds → (fullSats deltas).getD 0 0 = d)
    ∧ (∀ i, i + 1 < deltas.length →
        (fullSats deltas).getD (i + 1) 0 =
          (fullSats deltas).getD i 0 + deltas.getD (i + 1) 0)
    ∧ (fillPageCore [1000, 5, 10] [2, 0, 1]).take 5 =
        [some 1005, some 1015, some 1000, some 0, some 0] := by
  refine ⟨?_, ?_, ?_, ?_, ?_, rfl⟩
  · rw [fillPageCore, scatterGo_length, List.length_replicate]
  · intro k hk
    have hb : indices.get ⟨k, hk⟩ < (List.replicate 100000
        (some (0 : Nat))).length := by
      rw [List.length_replicate]; exact hlt _ (List.get_mem indices k hk)
    have h2 := scatterGo_hit (fullSats deltas) indices 0
      (List.replicate 100000 (some 0)) hnd k hk hb
    rw [Nat.zero_add] at h2
    exact h2
  · intro j hj hnotin
    rw [fillPageCore, scatterGo_not_mem _ _ _ _ _ hnotin,
      List.getElem?_replicate_of_lt hj]
  · intro d ds hd
    subst hd
    exact fullSats_getD_zero d ds
  · exact fullSats_recurrence deltas

/-- Witness for C1 at the concrete example of the specification. -/
theorem fillPage_delta_reconstruction_and_scatter_witness :
    ([2, 0, 1] : List Nat).Nodup
    ∧ (∀ j ∈ ([2, 0, 1] : List Nat), j < 100000)
    ∧ (fillPageCore [1000, 5, 10] [2, 0, 1]).take 5 =
        [some 1005, some 1015, some 1000, some 0, some 0] :=
  ⟨by decide, by decide,
    (fillPage_delta_reconstruction_and_scatter [1000, 5, 10] [2, 0, 1]
      (by decide) (by decide)).2.2.2.2.2⟩

/-! ## C2: the bracket-wrap-and-split normalization of pages 2 and 3 -/

/-- C2 evaluated at its failing input (the claim states the evident
intent - recover two 100,000-element arrays from the 200,000-element
flattened payload - and the code is an off-by-one slip): exactly the
pages with index 2 and 3 take the branch, whose split is
slice(0, 99999) and slice(100000, 199999), i.e. take 99999 paired with
drop 100000 of take 199999 for every payload.  On a 200,000-element
flattened payload each recovered array therefore has 99,999 elements,
not the claimed 100,000, and the element at position 99,999 is in the
payload but in neither array - it is dropped (as is the one at
199,999, by the same slice bounds). -/
theorem page23_wrap_split_eval :
    page23Branch 2 (List.range 200000) =
      some (page23Normalize (List.range 200000))
    ∧ page23Branch 3 (List.range 200000) =
      some (page23Normalize (List.range 200000))
    ∧ (∀ flat : List Nat, page23Normalize flat =
        (flat.take 99999, (flat.take 199999).drop 100000))
    ∧ ((page23Normalize (List.range 200000)).1).length = 99999
    ∧ ((page23Normalize (List.range 200000)).2).length = 99999
    ∧ ((page23Normalize (List.range 200000)).1).length ≠ 100000
    ∧ (99999 : Nat) ∈ List.range 200000
    ∧ (99999 : Nat) ∉ (page23Normalize (List.range 200000)).1
    ∧ (99999 : Nat) ∉ (page23Normalize (List.range 200000)).2 := by
  refine ⟨rfl, rfl, ?_, ?_, ?_, ?_, List.mem_range.mpr (by norm_num), ?_, ?_⟩
  · intro flat
    simp [page23Normalize, jsSliceNat]
  · simp [page23Normalize, jsSliceNat]
  · simp [page23Normalize, jsSliceNat]
  · simp [page23Normalize, jsSliceNat]
  · intro h
    simp only [page23Normalize, jsSliceNat] at h
    rw [List.mem_iff_getElem] at h
    obtain ⟨i, hi, hEq⟩ := h
    rw [List.length_drop, List.length_take, List.length_range] at hi
    rw [List.getElem_drop, List.getElem_take, List.getElem_range] at hEq
    omega
  · intro h
    simp only [page23Normalize, jsSliceNat] at h
    rw [List.mem_iff_getElem] at h
    obtain ⟨i, hi, hEq⟩ := h
    rw [List.length_drop, List.length_take, List.length_range] at hi
    rw [List.getElem_drop, List.getElem_take, List.getElem_range] at hEq
    omega

/-! ## C3: zero sentinel resolves to Unresolved, no fabricated values -/

/-- The zero-slot path of the part_001 resolver, stated for an
abstract loaded page array: a loaded page whose slot holds 0 makes
part001GetBitmapSat return the computed fallback value. -/
lemma part001_zero_slot (lp : Nat → Option (List (Option Nat))) (d : Int)
    (h0 : ¬ d < 0) (h1 : ¬ d > 839999) (arr : List (Option Nat))
    (harr : lp (d / 100000).toNat = some arr)
    (hslot : arr[(d % 100000).toNat]? = some (some 0)) :
    part001GetBitmapSat lp d =
      some (part001Fallback (d / 100000).toNat (d % 100000).toNat) := by
  unfold part001GetBitmapSat
  rw [if_neg (by push_neg; omega)]
  dsimp only
  rw [harr]
  dsimp only
  rw [hslot]
  rfl

/-- Counterexample to C3.  The part_001 variant of getBitmapSat does
substitute a computed fallback: district 200005, whose page 2 is
loaded with every slot holding the zero sentinel, resolves to
1000000 + 2 * 100000 + 5 * 2 = 1200010 instead of Unresolved. -/
theorem part001_zero_sentinel_fallback_counterexample :
    part001GetBitmapSat loadedZeroPages 200005 = some 1200010
    ∧ part001GetBitmapSat loadedZeroPages 200005 ≠ none := by
  have harr : loadedZeroPages ((200005 : Int) / 100000).toNat =
      some (List.replicate 100000 (some 0)) := rfl
  have hidx : (((200005 : Int)) % 100000).toNat = 5 := by decide
  have hslot : (List.replicate 100000 (some (0 : Nat)))[(((200005 : Int)) % 100000).toNat]? = some (some 0) := by
    rw [hidx]
    exact List.getElem?_replicate_of_lt (by norm_num)
  have h := part001_zero_slot loadedZeroPages 200005 (by norm_num)
    (by norm_num) (List.replicate 100000 (some 0)) harr hslot
  rw [show part001Fallback ((200005 : Int) / 100000).toNat
      ((200005 : Int) % 100000).toNat = 1200010 by decide] at h
  exact ⟨h, by rw [h]; exact Option.some_ne_none _⟩

/-- The three-way case split of an in-range getBitmapSat call: page
already loaded (read the slot, no fetch), page load fails (null, one
fetch), page load succeeds (store the parsed page, read its slot, one
fetch). -/
lemma getBitmapSat_characterization
    (env : Nat → Option (List Nat × List Nat)) (d : Int) (st : OciState)
    (h0 : ¬ d < 0) (h1 : ¬ d > 839999) :
    getBitmapSat env d st =
      match st.pages (d / 100000).toNat with
      | some arr => ((arr[(d % 100000).toNat]?).join, st, ([] : List Nat))
      | none =>
        match env (d / 100000).toNat with
        | none => (none, st, [(d / 100000).toNat])
        | some di =>
          (((fillPageCore di.1 di.2)[(d % 100000).toNat]?).join,
            ⟨fun q => if q = (d / 100000).toNat
              then some (fillPageCore di.1 di.2) else st.pages q⟩,
            [(d / 100000).toNat]) := by
  unfold getBitmapSat fillPage
  rw [if_neg h0, if_neg h1]
  dsimp only
  cases hp : st.pages (d / 100000).toNat with
  | some arr => rfl
  | none =>
    cases he : env (d / 100000).toNat with
    | none => rfl
    | some di =>
      dsimp only
      rw [if_pos rfl]

/-- The first component of resolveDistrict is the truthiness filter of
handleOci applied to the getBitmapSat value. -/
lemma resolveDistrict_fst
    (env : Nat → Option (List Nat × List Nat)) (d : Int) (st : OciState) :
    (resolveDistrict env d st).1 =
      match (getBitmapSat env d st).1 with
      | some w => if w = 0 then none else some w
      | none => none := rfl

lemma resolveDistrict_snd
    (env : Nat → Option (List Nat × List Nat)) (d : Int) (st : OciState) :
    (resolveDistrict env d st).2 = (getBitmapSat env d st).2 := rfl

/-- C3 as amended.  The claim holds of the Home.tsx implementation:
for every in-range district, a loaded page whose slot holds the zero
sentinel resolves to Unresolved, a page that fails to load resolves to
Unresolved, and any value that does come back is exactly the stored
slot value of the district page (never a guessed or computed
substitute).  The part_001 variant violates the claim by substituting
a deterministic computed fallback for zero or missing slots (see the
counterexample). -/
theorem home_resolve_zero_sentinel_unresolved
    (env : Nat → Option (List Nat × List Nat)) (d : Int) (st : OciState)
    (h0 : 0 ≤ d) (h1 : d ≤ 839999) :
    (∀ arr, st.pages (d / 100000).toNat = some arr →
        arr[(d % 100000).toNat]? = some (some 0) →
        (resolveDistrict env d st).1 = none)
    ∧ (st.pages (d / 100000).toNat = none → env (d / 100000).toNat = none →
        (resolveDistrict env d st).1 = none)
    ∧ (∀ v, (resolveDistrict env d st).1 = some v →
        v ≠ 0 ∧ ∃ arr,
          ((resolveDistrict env d st).2.1).pages (d / 100000).toNat = some arr
          ∧ arr[(d % 100000).toNat]? = some (some v)) := by
  have hd0 : ¬ d < 0 := by omega
  have hd1 : ¬ d > 839999 := by omega
  have hchar := getBitmapSat_characterization env d st hd0 hd1
  refine ⟨?_, ?_, ?_⟩
  · intro arr harr hslot
    have hg : getBitmapSat env d st = (some 0, st, []) := by
      rw [hchar, harr]
      dsimp only
      rw [hslot]
      rfl
    rw [resolveDistrict_fst, hg]
    rfl
  · intro hpage henv
    have hg : getBitmapSat env d st = (none, st, [(d / 100000).toNat]) := by
      rw [hchar, hpage, henv]
    rw [resolveDistrict_fst, hg]
  · intro v hv
    rw [resolveDistrict_fst] at hv
    rw [resolveDistrict_snd]
    cases hp : st.pages (d / 100000).toNat with
    | some arr =>
      have hg : getBitmapSat env d st =
          ((arr[(d % 100000).toNat]?).join, st, []) := by
        rw [hchar, hp]
      rw [hg] at hv ⊢
      dsimp only at hv ⊢
      cases hj : (arr[(d % 100000).toNat]?).join with
      | none => rw [hj] at hv; simp at hv
      | some w =>
        rw [hj] at hv
        dsimp only at hv
        by_cases hw : w = 0
        · rw [if_pos hw] at hv; simp at hv
        · rw [if_neg hw] at hv
          obtain rfl : w = v := by simpa using hv
          exact ⟨hw, arr, hp, Option.join_eq_some.mp hj⟩
    | none =>
      cases he : env (d / 100000).toNat with
      | none =>
        have hg : getBitmapSat env d st =
            (none, st, [(d / 100000).toNat]) := by rw [hchar, hp, he]
        rw [hg] at hv
        dsimp only at hv
        simp at hv
      | some di =>
        have hg : getBitmapSat env d st =
            (((fillPageCore di.1 di.2)[(d % 100000).toNat]?).join,
              ⟨fun q => if q = (d / 100000).toNat
                then some (fillPageCore di.1 di.2) else st.pages q⟩,
              [(d / 100000).toNat]) := by rw [hchar, hp, he]
        rw [hg] at hv ⊢
        dsimp only at hv ⊢
        cases hj : ((fillPageCore di.1 di.2)[(d % 100000).toNat]?).join with
        | none => rw [hj] at hv; simp at hv
        | some w =>
          rw [hj] at hv
          dsimp only at hv
          by_cases hw : w = 0
          · rw [if_pos hw] at hv; simp at hv
          · rw [if_neg hw] at hv
            obtain rfl : w = v := by simpa using hv
            exact ⟨hw, fillPageCore di.1 di.2, if_pos rfl,
              Option.join_eq_some.mp hj⟩

/-- Witness for C3 as amended: district 0 on a loaded all-zero page
resolves to Unresolved. -/
theorem home_resolve_zero_sentinel_unresolved_witness :
    (0 : Int) ≤ 0 ∧ (0 : Int) ≤ 839999
    ∧ (resolveDistrict witnessEnv 0 zeroPageState).1 = none :=
  ⟨by norm_num, by norm_num,
    (home_resolve_zero_sentinel_unresolved witnessEnv 0 zeroPageState
        (by norm_num) (by norm_num)).1
      (List.replicate 100000 (some 0)) rfl
      (by rw [show (((0 : Int)) % 100000).toNat = 0 from rfl,
            List.getElem?_replicate_of_lt (by norm_num)])⟩

/-! ## C8: out-of-range districts are rejected before any fetch -/

/-- C8.  For every district number outside 0..839999, getBitmapSat
returns the null result with the cache untouched and an empty fetch
log: the range check precedes any page access or fetch. -/
theorem resolve_out_of_range_no_fetch
    (env : Nat → Option (List Nat × List Nat)) (d : Int) (st : OciState)
    (h : d < 0 ∨ d > 839999) :
    getBitmapSat env d st = (none, st, []) := by
  rcases h with h | h
  · simp only [getBitmapSat, if_pos h]
  · simp only [getBitmapSat]
    rw [if_neg (by omega : ¬ d < 0), if_pos h]

/-- Witness for C8 at the two inputs named by the specification,
840000 and -1. -/
theorem resolve_out_of_range_no_fetch_witness :
    ((840000 : Int) < 0 ∨ (840000 : Int) > 839999)
    ∧ getBitmapSat witnessEnv 840000 initialOciState =
        (none, initialOciState, [])
    ∧ ((-1 : Int) < 0 ∨ (-1 : Int) > 839999)
    ∧ getBitmapSat witnessEnv (-1) initialOciState =
        (none, initialOciState, []) :=
  ⟨Or.inr (by norm_num),
    resolve_out_of_range_no_fetch witnessEnv 840000 initialOciState
      (Or.inr (by norm_num)),
    Or.inl (by norm_num),
    resolve_out_of_range_no_fetch witnessEnv (-1) initialOciState
      (Or.inl (by norm_num))⟩

/-! ## C9: only the own page is fetched, loaded pages are cached -/

/-- C9.  An in-range resolve only ever fetches page
floor(d / 100000): every entry of its fetch log is that page index.
A page whose cache slot is already populated is never re-fetched and
leaves the cache untouched.  When the page environment can deliver the
page, the resolve leaves the page slot populated, and every subsequent
in-range resolve against the same page on the resulting cache fetches
nothing. -/
theorem resolve_fetches_only_own_page_and_caches
    (env : Nat → Option (List Nat × List Nat)) (d : Int) (st : OciState)
    (h0 : 0 ≤ d) (h1 : d ≤ 839999) :
    (∀ q, q ∈ (getBitmapSat env d st).2.2 → q = (d / 100000).toNat)
    ∧ ((st.pages (d / 100000).toNat).isSome →
        (getBitmapSat env d st).2.2 = [] ∧ (getBitmapSat env d st).2.1 = st)
    ∧ (env (d / 100000).toNat ≠ none →
        (((getBitmapSat env d st).2.1).pages (d / 100000).toNat).isSome)
    ∧ (∀ d2 : Int, 0 ≤ d2 → d2 ≤ 839999 →
        (d2 / 100000).toNat = (d / 100000).toNat →
        (((getBitmapSat env d st).2.1).pages (d / 100000).toNat).isSome →
        (getBitmapSat env d2 ((getBitmapSat env d st).2.1)).2.2 = []) := by
  have hd0 : ¬ d < 0 := by omega
  have hd1 : ¬ d > 839999 := by omega
  have hchar := getBitmapSat_characterization env d st hd0 hd1
  cases hp : st.pages (d / 100000).toNat with
  | some arr =>
    have hg : getBitmapSat env d st =
        ((arr[(d % 100000).toNat]?).join, st, []) := by rw [hchar, hp]
    refine ⟨?_, ?_, ?_, ?_⟩
    · rw [hg]; intro q hq; simp at hq
    · rw [hg]; exact fun _ => ⟨rfl, rfl⟩
    · rw [hg]; intro _; dsimp only; rw [hp]; rfl
    · intro d2 h20 h21 hp2 _
      have hchar2 := getBitmapSat_characterization env d2
        ((getBitmapSat env d st).2.1) (by omega) (by omega)
      rw [hg] at hchar2 ⊢
      dsimp only at hchar2 ⊢
      rw [hchar2, hp2, hp]
  | none =>
    cases he : env (d / 100000).toNat with
    | none =>
      have hg : getBitmapSat env d st = (none, st, [(d / 100000).toNat]) := by
        rw [hchar, hp, he]
      refine ⟨?_, ?_, ?_, ?_⟩
      · rw [hg]; intro q hq; simpa using hq
      · intro hsome; simp at hsome
      · intro hne; exact absurd rfl hne
      · intro d2 h20 h21 hp2 hsome
        rw [hg] at hsome
        dsimp only at hsome
        rw [hp] at hsome
        simp at hsome
    | some di =>
      have hg : getBitmapSat env d st =
          (((fillPageCore di.1 di.2)[(d % 100000).toNat]?).join,
            ⟨fun q => if q = (d / 100000).toNat
              then some (fillPageCore di.1 di.2) else st.pages q⟩,
            [(d / 100000).toNat]) := by rw [hchar, hp, he]
      refine ⟨?_, ?_, ?_, ?_⟩
      · rw [hg]; intro q hq; simpa using hq
      · intro hsome; simp at hsome
      · intro _; rw [hg]; dsimp only; rw [if_pos rfl]; rfl
      · intro d2 h20 h21 hp2 _
        have hchar2 := getBitmapSat_characterization env d2
          ((getBitmapSat env d st).2.1) (by omega) (by omega)
        rw [hg] at hchar2 ⊢
        dsimp only at hchar2 ⊢
        rw [hchar2, hp2]
        try dsimp only
        rw [if_pos rfl]

/-- Witness for C9: resolving district 100000 (page 1) against the
empty cache. -/
theorem resolve_fetches_only_own_page_and_caches_witness :
    (0 : Int) ≤ 100000 ∧ (100000 : Int) ≤ 839999
    ∧ ∀ q, q ∈ (getBitmapSat witnessEnv 100000 initialOciState).2.2 →
        q = ((100000 : Int) / 100000).toNat :=
  ⟨by norm_num, by norm_num,
    (resolve_fetches_only_own_page_and_caches witnessEnv 100000
      initialOciState (by norm_num) (by norm_num)).1⟩

/-! ## C4: the simple/float dispatch of major type 7 -/

/-- C4 evaluated at its failing inputs (the claim is right and the
code is wrong: decode calls readLength before the major-type-7 switch,
so the switch compares the already-decoded argument value - read from
the extension bytes - against 25, 26 and 27 instead of dispatching on
the additional-info argument).  Arguments 20..23 do map to false,
true, null and undefined.  But the half-float 1.0 encoding
[0xF9, 0x3C, 0x00] returns the number 15360 (the two payload bytes
read as a big-endian integer) instead of the marked unsupported value;
the marker only appears when the two payload bytes happen to encode
the integer 25.  The single-float 1.0 encoding
[0xFA, 0x3F, 0x80, 0x00, 0x00] returns the number 1065353216 (the four
payload bytes read as a big-endian integer by readLength) instead of
reading the following four bytes as a float, and the double encoding
of pi returns the integer assembled from its eight payload bytes by
the double-precision arithmetic of readLength (rounded to a multiple
of 1024 at this magnitude), not a float read from further bytes. -/
theorem simple_float_argument_dispatch_eval :
    decodeCBOR [244] = .ok (.bool false)
    ∧ decodeCBOR [245] = .ok (.bool true)
    ∧ decodeCBOR [246] = .ok .null
    ∧ decodeCBOR [247] = .ok .undefined
    ∧ decodeCBOR [249, 60, 0] = .ok (.num 15360)
    ∧ decodeCBOR [249, 0, 25] = .ok (.str "FLOAT16_UNSUPPORTED")
    ∧ decodeCBOR [250, 63, 128, 0, 0] = .ok (.num 1065353216)
    ∧ decodeCBOR [251, 64, 9, 33, 251, 84, 68, 45, 24] =
        .ok (.num 4614256656552045568) :=
  ⟨rfl, rfl, rfl, rfl, rfl, rfl, rfl, rfl⟩

/-! ## C5: bounds behaviour of the byte reader -/

/-- Counterexample to C5.  A read past the end of the buffer does not
fail with an UnexpectedEof error: readByte on the empty buffer returns
the pair (undefined, cursor 1), so the cursor exceeds the buffer
length, and readByteString advances the cursor by the full requested
length past the end. -/
theorem reader_cursor_exceeds_counterexample :
    readByte ([] : List Nat) (some 0) = (none, some 1)
    ∧ (1 : Int) > (([] : List Nat).length : Int)
    ∧ readByteString ([] : List Nat) (some 0) (some 5) = ([], some 5)
    ∧ (5 : Int) > (([] : List Nat).length : Int) :=
  ⟨rfl, by norm_num, rfl, by norm_num⟩

/-- C5 as amended.  The reader never returns data from beyond the
buffer: an in-range readByte returns exactly the buffer byte at the
cursor, a past-the-end readByte returns undefined rather than data,
and readByteString returns exactly the in-range bytes
buffer[p..p+n-1] clipped to the buffer (every returned byte is a
buffer byte at its original offset).  But no UnexpectedEof failure
exists and the cursor may exceed the buffer length (see the
counterexample). -/
theorem reader_never_reads_out_of_bounds (bytes : List Nat) (i : Nat)
    (h : i < bytes.length) :
    readByte bytes (some (i : Int)) =
      (some (bytes.get ⟨i, h⟩), some ((i : Int) + 1))
    ∧ (∀ j : Nat, bytes.length ≤ j →
        (readByte bytes (some (j : Int))).1 = none)
    ∧ (∀ p n : Nat,
        (readByteString bytes (some (p : Int)) (some (n : Int))).1 =
          (bytes.drop p).take n
        ∧ (readByteString bytes (some (p : Int)) (some (n : Int))).2 =
            some ((p : Int) + n)
        ∧ ∀ k (hk : k < ((bytes.drop p).take n).length),
            ∃ hpk : p + k < bytes.length,
              ((bytes.drop p).take n).get ⟨k, hk⟩ =
                bytes.get ⟨p + k, hpk⟩) := by
  refine ⟨?_, ?_, ?_⟩
  · unfold readByte
    dsimp only
    rw [if_pos (Int.natCast_nonneg i)]
    rw [Int.toNat_natCast, List.getElem?_eq_getElem h]
    rfl
  · intro j hj
    unfold readByte
    dsimp only
    rw [if_pos (Int.natCast_nonneg j)]
    rw [Int.toNat_natCast]
    exact List.getElem?_eq_none hj
  · intro p n
    have hslice :
        (readByteString bytes (some (p : Int)) (some (n : Int))).1 =
          (bytes.drop p).take n := by
      unfold readByteString jsSlice jsAddOpt jsSliceIdx
      dsimp only
      rw [if_neg (by omega : ¬ ((p : Int) + (n : Int) < 0)),
        if_neg (by omega : ¬ ((p : Int) < 0))]
      rw [show ((p : Int) + (n : Int)).toNat = p + n by omega,
        Int.toNat_natCast]
      have e1 : bytes.take (min (p + n) bytes.length) = bytes.take (p + n) := by
        rcases Nat.le_total (p + n) bytes.length with hle | hle
        · rw [Nat.min_eq_left hle]
        · rw [Nat.min_eq_right hle, List.take_length,
            List.take_of_length_le hle]
      rw [e1]
      rcases Nat.le_total p bytes.length with hple | hple
      · rw [Nat.min_eq_left hple, List.drop_take, Nat.add_sub_cancel_left]
      · rw [Nat.min_eq_right hple]
        have hx : (bytes.take (p + n)).length ≤ bytes.length := by
          simp [List.length_take]
        rw [List.drop_eq_nil_of_le hx, List.drop_eq_nil_of_le hple,
          List.take_nil]
    refine ⟨hslice, ?_, ?_⟩
    · unfold readByteString jsAddOpt
      rfl
    · intro k hk
      have hk2 : k < bytes.length - p := by
        rw [List.length_take, List.length_drop] at hk
        omega
      refine ⟨by omega, ?_⟩
      rw [List.get_eq_getElem, List.get_eq_getElem, List.getElem_take,
        List.getElem_drop]

/-- Witness for C5 as amended, at a two-byte buffer. -/
theorem reader_never_reads_out_of_bounds_witness :
    0 < [7, 8].length
    ∧ readByte [7, 8] (some 0) = (some 7, some 1) :=
  ⟨by norm_num, by
    have hfact := (reader_never_reads_out_of_bounds [7, 8] 0 (by norm_num)).1
    simpa using hfact⟩

/-! ## C6: the order of the metadata decoding strategies -/

/-- Counterexample to C6.  In the ALL-subcommand path the binary
decoder runs first (its quoted-hex fallback is unreachable because
decodeMetadata catches its own errors), so the quoted-hex payload
whose inner content is 48656c6c6f does not decode to Hello there: the
leading quote byte 0x22 parses as a negative integer header and the
path displays Value: -3 (string). -/
theorem metadata_all_path_hex_not_first_counterexample :
    metadataAllDisplay helloQuotedBytes = "Value: -3 (string)"
    ∧ metadataAllDisplay helloQuotedBytes ≠ "Hex Decoded: Hello"
    ∧ metadataAllDisplay helloQuotedBytes ≠ "Hello" := by
  have h : metadataAllDisplay helloQuotedBytes = "Value: -3 (string)" := rfl
  exact ⟨h, by rw [h]; decide, by rw [h]; decide⟩

/-- C6 as amended.  Only the METADATA-subcommand path tries the
strategies in the order quoted-hex unwrapping, then binary decoding,
then raw text, and on it the quoted payload 48656c6c6f decodes to
Hello; the ALL-subcommand path attempts binary decoding first (its
hex fallback is dead code), so the same payload surfaces as the
binary result Value: -3 (string). -/
theorem metadata_paths_order_amended :
    metadataSubDisplay helloQuotedBytes = "Hex Decoded: Hello"
    ∧ hexToText "48656c6c6f" = "Hello"
    ∧ decodeCBOR helloQuotedBytes = .ok (.num (-3))
    ∧ metadataAllDisplay helloQuotedBytes = "Value: -3 (string)" :=
  ⟨rfl, rfl, rfl, rfl⟩

/-! ## C7: totality of the metadata decoder -/

/-- C7.  decodeMetadata is total: for every payload, bytes or text,
it returns a displayable result and never propagates an error to its
caller (the binary strategy is wrapped in a catch-all that falls back
to a hex dump of the bytes or to the text itself); and the
empty-payload guard in front of it yields the no-metadata marker. -/
theorem metadata_decoder_total_and_empty_marker :
    (∀ payload : List Nat ⊕ String, (decodeMetadata payload).isOk = true)
    ∧ metadataEntry [] =
        "METADATA: No metadata available for this inscription" := by
  constructor
  · have hb : ∀ buffer : List Nat,
        (decodeMetadataBytes buffer).isOk = true := by
      intro buffer
      unfold decodeMetadataBytes
      cases decodeCBOR buffer <;> rfl
    intro payload
    cases payload with
    | inl buffer => exact hb buffer
    | inr s =>
      show (decodeMetadata (Sum.inr s)).isOk = true
      unfold decodeMetadata
      dsimp only
      split
      · exact hb _
      · rfl
  · rfl

/-! ## C10: additional-info values 28..31 -/

/-- readByte at the head of a nonempty buffer. -/
lemma readByte_cons_zero (b : Nat) (rest : List Nat) :
    readByte (b :: rest) (some 0) = (some b, some 1) := by
  unfold readByte
  simp

/-- readLength throws the Unsupported length encoding error for every
additional-info value 28..31, whatever follows in the buffer, without
reading further. -/
lemma readLength_ge28 (bytes : List Nat) (b : Nat) (pos : Option Int)
    (h : 28 ≤ b % 32) :
    readLength bytes b pos = (.error (.unsupportedLength (b % 32)), pos) := by
  unfold readLength
  dsimp only
  rw [if_neg (by omega : ¬ b % 32 < 24), if_neg (by omega : ¬ b % 32 = 24),
    if_neg (by omega : ¬ b % 32 = 25), if_neg (by omega : ¬ b % 32 = 26),
    if_neg (by omega : ¬ b % 32 = 27)]

/-- C10.  For every buffer whose leading header byte has an
additional-info value (low five bits) of 28, 29, 30 or 31, decodeCBOR
raises the Unsupported length encoding error instead of returning a
fallback value, whatever the major type (top three bits) and whatever
bytes follow: readLength runs and throws before any per-major-type
handling. -/
theorem readLength_unsupported_additional_info
    (b : Nat) (rest : List Nat) (hb : b < 256) (hai : 28 ≤ b % 32) :
    decodeCBOR (b :: rest) = .error (.unsupportedLength (b % 32)) := by
  show (decode (b :: rest) (rest.length + 1 + 1) (some 0)).map Prod.fst = _
  rw [decode]
  dsimp only
  rw [readByte_cons_zero]
  dsimp only
  simp only [Option.getD_some]
  rw [readLength_ge28 _ _ _ hai]
  rfl

/-- Witness for C10 at the header byte 0xFF (major type 7,
additional info 31). -/
theorem readLength_unsupported_additional_info_witness :
    (255 : Nat) < 256 ∧ 28 ≤ 255 % 32
    ∧ decodeCBOR [255] = .error (.unsupportedLength (255 % 32)) :=
  ⟨by norm_num, by norm_num,
    readLength_unsupported_additional_info 255 [] (by norm_num)
      (by norm_num)⟩

end Terminato
